import Mathlib

/-!
Verification of the Session Client (frontend/src/services/AIService.js).

The JavaScript class `AIServiceClass` keeps a `Map` from session identifiers to
local session mirrors and exposes `createSession`, `processMessage`,
`getSession`, `deleteSession`, `clearOldSessions`, `getApiStatus` and
`downloadGraphML`.  We embed it shallowly: the registry is an association list
(the JS `Map`: keys unique, insertion order kept, `set` on an existing key
updates in place, `delete` removes), every network call is represented by an
explicit outcome value handed to the operation (a thrown network error, or an
HTTP response with its `ok` flag and the parsed body fields the code reads),
timestamps (`new Date()` / `Date.now()`) are naturals in milliseconds passed as
a `now` parameter, and each operation returns its JS result (`Except` for a
method that can throw) together with the registry after the call.
`deleteSession` and `clearOldSessions` additionally return the list of session
identifiers for which a backend DELETE request was issued, which in the source
happens unconditionally before the local removal.
-/

namespace AIService

/-- Entry of a session mirror's `messages` array:
`{ role, content, timestamp }` as pushed by `processMessage`. -/
structure Message where
  role : String
  content : String
  timestamp : Nat
  deriving Repr, DecidableEq

/-- Local session mirror stored in `this.sessions`:
`{ messages: [], filename, createdAt, lastActivity }` as set by `createSession`. -/
structure Session where
  messages : List Message
  filename : String
  createdAt : Nat
  lastActivity : Nat
  deriving Repr, DecidableEq

/-- The registry `this.sessions : Map sessionId -> Session`, embedded as an
association list with unique keys in insertion order. -/
abbrev Registry := List (String × Session)

/-- JS `Map.get` (with `undefined` as `none`): the value at the first entry
whose key matches. -/
def mapGet : Registry → String → Option Session
  | [], _ => none
  | e :: rest, k => if e.1 = k then some e.2 else mapGet rest k

/-- JS `Map.has`. -/
def mapHas (st : Registry) (k : String) : Bool :=
  (mapGet st k).isSome

/-- In-place mutation of the session object obtained from `Map.get`
(`session.lastActivity = ...; session.messages.push(...)`): the entry for `k`
is replaced by `f` of its value, everything else untouched. -/
def mapUpdate (st : Registry) (k : String) (f : Session → Session) : Registry :=
  st.map (fun e => if e.1 = k then (e.1, f e.2) else e)

/-- JS `Map.set`: update in place when the key exists, append otherwise. -/
def mapSet (st : Registry) (k : String) (v : Session) : Registry :=
  if mapHas st k then mapUpdate st k (fun _ => v) else st ++ [(k, v)]

/-- JS `Map.delete`: remove the entry with the given key. -/
def mapDelete : Registry → String → Registry
  | [], _ => []
  | e :: rest, k => if e.1 = k then mapDelete rest k else e :: mapDelete rest k

/-- JS `a || b` on an optional string field: the field's value when present and
truthy (non-empty), the fallback otherwise.  Used for
`error.detail || 'Failed to ...'`. -/
def jsOr (s : Option String) (fallback : String) : String :=
  match s with
  | some v => if v = "" then fallback else v
  | none => fallback

/-- Errors the Session Client can propagate.  The spec's taxonomy names the
`Error` thrown on a non-success HTTP status of each endpoint; a raised network
error is rethrown unchanged by every `catch` block that propagates at all. -/
inductive ServiceError where
  | sessionCreationError (reason : String)
  | messageProcessingError (reason : String)
  | exportUnavailableError (reason : String)
  | networkError (msg : String)
  deriving Repr, DecidableEq

/-- Outcome of the `POST /sessions/create` fetch: the fetch (or body parsing)
threw, or the response was not ok with an optional `detail` field, or it was ok
with a `session_id` field. -/
inductive CreateOutcome where
  | thrown (msg : String)
  | failure (detail : Option String)
  | success (session_id : String)
  deriving Repr, DecidableEq

/-- Outcome of the `POST /chat` fetch. -/
inductive ChatOutcome where
  | thrown (msg : String)
  | failure (detail : Option String)
  | success (response : String)
  deriving Repr, DecidableEq

/-- Outcome of the `DELETE /sessions/{id}` fetch: thrown, or completed with
some status (the code never reads `response.ok` here). -/
inductive DeleteOutcome where
  | thrown (msg : String)
  | completed (ok : Bool)
  deriving Repr, DecidableEq

/-- Outcome of the `GET /health` fetch; on an ok response the code reads
`openai_available` and `active_sessions` from the body. -/
inductive HealthOutcome where
  | thrown (msg : String)
  | response (ok : Bool) (openai_available : Bool) (active_sessions : Nat)
  deriving Repr, DecidableEq

/-- Outcome of the `GET /sessions/{id}/graphml` fetch; the body's optional
`detail` field is carried so we can observe that the code never reads it. -/
inductive GraphmlOutcome where
  | thrown (msg : String)
  | response (ok : Bool) (detail : Option String)
  deriving Repr, DecidableEq

/-- The object returned by `getApiStatus`. -/
structure HealthStatus where
  available : Bool
  openai_configured : Bool
  active_sessions : Nat
  backend_connected : Bool
  deriving Repr, DecidableEq

/-- The fixed fallback value `getApiStatus` returns on any failure. -/
def degradedStatus : HealthStatus :=
  { available := false, openai_configured := false, active_sessions := 0,
    backend_connected := false }

/-- `createSession(xmlFile)`: POST the file; on a non-ok response throw
`Error(error.detail || 'Failed to create session')`; on success store a fresh
mirror under the backend-issued `session_id` and return that id.  A thrown
network error is logged and rethrown. -/
def createSession (st : Registry) (now : Nat) (fileName : String)
    (outcome : CreateOutcome) : Except ServiceError String × Registry :=
  match outcome with
  | .thrown m => (.error (.networkError m), st)
  | .failure d => (.error (.sessionCreationError (jsOr d "Failed to create session")), st)
  | .success sid =>
      (.ok sid,
       mapSet st sid
         { messages := [], filename := fileName, createdAt := now, lastActivity := now })

/-- `processMessage(sessionId, message)`: POST `{session_id, message}`; on a
non-ok response throw `Error(error.detail || 'Failed to process message')`; on
success, if a local mirror exists bump its `lastActivity` and push the
`user`/`assistant` pair, then return `result.response` either way. -/
def processMessage (st : Registry) (now : Nat) (sessionId message : String)
    (outcome : ChatOutcome) : Except ServiceError String × Registry :=
  match outcome with
  | .thrown m => (.error (.networkError m), st)
  | .failure d => (.error (.messageProcessingError (jsOr d "Failed to process message")), st)
  | .success resp =>
      if mapHas st sessionId then
        (.ok resp,
         mapUpdate st sessionId (fun s =>
           { s with
             lastActivity := now,
             messages := s.messages ++
               [{ role := "user", content := message, timestamp := now },
                { role := "assistant", content := resp, timestamp := now }] }))
      else (.ok resp, st)

/-- `getSession(sessionId)`: read-only registry lookup, `null` as `none`. -/
def getSession (st : Registry) (sessionId : String) : Option Session :=
  mapGet st sessionId

/-- `deleteSession(sessionId)`: issue the backend DELETE (unconditionally, and
before any local check), then remove the local mirror; the `catch` block also
removes the local mirror and swallows the error, so the method never throws.
The second component is the list of identifiers a backend DELETE was issued
for, which is `[sessionId]` on every path. -/
def deleteSession (st : Registry) (sessionId : String) (outcome : DeleteOutcome) :
    Registry × List String :=
  match outcome with
  | .thrown _ => (mapDelete st sessionId, [sessionId])
  | .completed _ => (mapDelete st sessionId, [sessionId])

/-- One iteration of the `clearOldSessions` loop body: when the entry's
`lastActivity < oneHourAgo`, invoke `deleteSession` on its key (accumulating
its registry effect and issued request). -/
def sweepStep (oneHourAgo : Nat) (outcomes : String → DeleteOutcome)
    (acc : Registry × List String) (e : String × Session) : Registry × List String :=
  if e.2.lastActivity < oneHourAgo then
    ((deleteSession acc.1 e.1 (outcomes e.1)).1,
     acc.2 ++ (deleteSession acc.1 e.1 (outcomes e.1)).2)
  else acc

/-- `clearOldSessions()`: compute `oneHourAgo = Date.now() - 60*60*1000` and
loop over a snapshot of the registry's entries, invoking `deleteSession` on
every session whose `lastActivity` predates it.  `outcomes` supplies the
backend outcome of each issued DELETE (the loop ignores it).  Returns the
registry after the sweep and the identifiers deletion was invoked on. -/
def clearOldSessions (st : Registry) (now : Nat) (outcomes : String → DeleteOutcome) :
    Registry × List String :=
  st.foldl (sweepStep (now - 60 * 60 * 1000) outcomes) (st, [])

/-- Identifiers of the entries `clearOldSessions` is specified to sweep: those
with `lastActivity < oneHourAgo`. -/
def staleIds (l : Registry) (oneHourAgo : Nat) : List String :=
  (l.filter (fun e => e.2.lastActivity < oneHourAgo)).map (fun e => e.1)

/-- Registry after deleting each key of a list in turn (proof scaffolding for
the sweep). -/
def deleteKeys (r : Registry) : List String → Registry
  | [] => r
  | k :: ks => deleteKeys (mapDelete r k) ks

/-- `getApiStatus()`: GET `/health`; on an ok response report the backend's
values with `available`/`backend_connected` true; on a non-ok response or any
throw fall through to the fixed degraded object.  Total: never throws. -/
def getApiStatus (outcome : HealthOutcome) : HealthStatus :=
  match outcome with
  | .thrown _ => degradedStatus
  | .response false _ _ => degradedStatus
  | .response true oa as =>
      { available := true, openai_configured := oa, active_sessions := as,
        backend_connected := true }

/-- `downloadGraphML(sessionId)`: GET the export; on a non-ok response throw
`Error('GraphML export not available')` (the body is never read); on success
trigger the browser save (a DOM side effect outside the registry).  The
registry is never touched. -/
def downloadGraphML (st : Registry) (sessionId : String) (outcome : GraphmlOutcome) :
    Except ServiceError Unit × Registry :=
  match outcome with
  | .thrown m => (.error (.networkError m), st)
  | .response false _ => (.error (.exportUnavailableError "GraphML export not available"), st)
  | .response true _ => (.ok (), st)

/-- One successful `processMessage` exchange: call time, user text, reply. -/
abbrev ChatEvent := Nat × String × String

/-- The two messages a successful exchange pushes, in order. -/
def chatPair (e : ChatEvent) : List Message :=
  [{ role := "user", content := e.2.1, timestamp := e.1 },
   { role := "assistant", content := e.2.2, timestamp := e.1 }]

/-- Registry after a sequence of successful `processMessage` calls on `sid`. -/
def runChats (sid : String) (st : Registry) : List ChatEvent → Registry
  | [] => st
  | e :: rest => runChats sid (processMessage st e.1 sid e.2.1 (.success e.2.2)).2 rest

/-- The registry after each prefix of a sequence of successful
`processMessage` calls on `sid` (for stating per-call properties). -/
def chatStates (sid : String) (st : Registry) : List ChatEvent → List Registry
  | [] => []
  | e :: rest =>
      (processMessage st e.1 sid e.2.1 (.success e.2.2)).2 ::
        chatStates sid (processMessage st e.1 sid e.2.1 (.success e.2.2)).2 rest

/-- Any call a consumer can make that is given a registry (the two pure reads
`getSession`/`getApiStatus` never touch it and are omitted as registry
transformers). -/
inductive Op where
  | create (now : Nat) (fileName : String) (outcome : CreateOutcome)
  | chat (now : Nat) (sessionId message : String) (outcome : ChatOutcome)
  | del (sessionId : String) (outcome : DeleteOutcome)
  | sweep (now : Nat) (outcomes : String → DeleteOutcome)
  | graphml (sessionId : String) (outcome : GraphmlOutcome)

/-- Registry effect of one operation. -/
def step (st : Registry) : Op → Registry
  | .create now fn oc => (createSession st now fn oc).2
  | .chat now sid msg oc => (processMessage st now sid msg oc).2
  | .del sid oc => (deleteSession st sid oc).1
  | .sweep now ocs => (clearOldSessions st now ocs).1
  | .graphml sid oc => (downloadGraphML st sid oc).2

/-- Registry reached from the constructor's empty `Map` by a call sequence. -/
def runOps (ops : List Op) : Registry :=
  ops.foldl step []

/-- A message list of even length strictly alternating `user`, `assistant`,
starting with `user`. -/
def alternates : List Message → Bool
  | [] => true
  | [_] => false
  | u :: a :: rest => u.role == "user" && a.role == "assistant" && alternates rest

/-- Every mirror in the registry has an alternating message list. -/
def registryOK (st : Registry) : Bool :=
  st.all (fun e => alternates e.2.messages)

/-! Helper lemmas about the embedded `Map` operations. -/

theorem mapGet_mapUpdate_self (st : Registry) (k : String) (f : Session → Session) :
    mapGet (mapUpdate st k f) k = (mapGet st k).map f := by
  induction st with
  | nil => rfl
  | cons e rest ih =>
      by_cases h : e.1 = k
      · simp [mapUpdate, mapGet, h]
      · simpa [mapUpdate, mapGet, h] using ih

theorem mapGet_mapUpdate_ne (st : Registry) (k k' : String) (f : Session → Session)
    (h : k' ≠ k) : mapGet (mapUpdate st k f) k' = mapGet st k' := by
  induction st with
  | nil => rfl
  | cons e rest ih =>
      by_cases he : e.1 = k
      · simp [mapUpdate, mapGet, he, Ne.symm h]
        simpa [mapUpdate] using ih
      · by_cases he' : e.1 = k'
        · simp [mapUpdate, mapGet, he, he', h]
        · simp [mapUpdate, mapGet, he, he']
          simpa [mapUpdate] using ih

theorem mapGet_mapDelete_self (st : Registry) (k : String) :
    mapGet (mapDelete st k) k = none := by
  induction st with
  | nil => rfl
  | cons e rest ih =>
      by_cases h : e.1 = k
      · simpa [mapDelete, h] using ih
      · simpa [mapDelete, mapGet, h] using ih

theorem mapGet_mapDelete_ne (st : Registry) (k k' : String) (h : k' ≠ k) :
    mapGet (mapDelete st k) k' = mapGet st k' := by
  induction st with
  | nil => rfl
  | cons e rest ih =>
      by_cases he : e.1 = k
      · simp [mapDelete, mapGet, he, Ne.symm h]
        simpa using ih
      · by_cases he' : e.1 = k'
        · simp [mapDelete, mapGet, he, he', h]
        · simpa [mapDelete, mapGet, he, he'] using ih

theorem mapDelete_of_none (st : Registry) (k : String) (h : mapGet st k = none) :
    mapDelete st k = st := by
  induction st with
  | nil => rfl
  | cons e rest ih =>
      by_cases he : e.1 = k
      · simp [mapGet, he] at h
      · simp [mapGet, he] at h
        simp [mapDelete, he, ih h]

theorem mapGet_append_right (st : Registry) (k : String) (v : Session)
    (h : mapGet st k = none) : mapGet (st ++ [(k, v)]) k = some v := by
  induction st with
  | nil => simp [mapGet]
  | cons e rest ih =>
      by_cases he : e.1 = k
      · simp [mapGet, he] at h
      · simp [mapGet, he] at h ⊢
        exact ih h

theorem mapGet_append_ne (st : Registry) (k k' : String) (v : Session) (h : k' ≠ k) :
    mapGet (st ++ [(k, v)]) k' = mapGet st k' := by
  induction st with
  | nil => simp [mapGet, Ne.symm h]
  | cons e rest ih =>
      by_cases he : e.1 = k'
      · simp [mapGet, he]
      · simpa [mapGet, he] using ih

theorem mapGet_mapSet_self (st : Registry) (k : String) (v : Session) :
    mapGet (mapSet st k v) k = some v := by
  unfold mapSet
  by_cases h : mapHas st k = true
  · rw [if_pos h, mapGet_mapUpdate_self]
    unfold mapHas at h
    cases hg : mapGet st k with
    | none => rw [hg] at h; simp at h
    | some s => simp
  · rw [if_neg h]
    unfold mapHas at h
    cases hg : mapGet st k with
    | none => exact mapGet_append_right st k v hg
    | some s => rw [hg] at h; simp at h

theorem mapGet_mapSet_ne (st : Registry) (k k' : String) (v : Session) (h : k' ≠ k) :
    mapGet (mapSet st k v) k' = mapGet st k' := by
  unfold mapSet
  by_cases hh : mapHas st k = true
  · rw [if_pos hh]; exact mapGet_mapUpdate_ne st k k' _ h
  · rw [if_neg hh]; exact mapGet_append_ne st k k' v h

theorem length_mapSet_of_none (st : Registry) (k : String) (v : Session)
    (h : mapGet st k = none) : (mapSet st k v).length = st.length + 1 := by
  unfold mapSet mapHas
  rw [h]
  simp

theorem mapGet_mem (st : Registry) (k : String) (s : Session)
    (h : mapGet st k = some s) : (k, s) ∈ st := by
  induction st with
  | nil => simp [mapGet] at h
  | cons e rest ih =>
      by_cases he : e.1 = k
      · simp only [mapGet, if_pos he] at h
        injection h with h2
        rw [← he, ← h2]
        exact List.mem_cons_self _ _
      · simp only [mapGet, if_neg he] at h
        exact List.mem_cons_of_mem e (ih h)

theorem keys_nodup_value_unique (st : Registry)
    (h : (st.map (fun e => e.1)).Nodup) (k : String) (a b : Session)
    (ha : (k, a) ∈ st) (hb : (k, b) ∈ st) : a = b := by
  induction st with
  | nil => simp at ha
  | cons e rest ih =>
      simp only [List.map_cons, List.nodup_cons] at h
      rcases List.mem_cons.mp ha with ha1 | ha1 <;>
        rcases List.mem_cons.mp hb with hb1 | hb1
      · have hab : (k, a) = (k, b) := ha1.trans hb1.symm
        exact congrArg Prod.snd hab
      · exfalso
        apply h.1
        have hk : e.1 = k := by rw [← ha1]
        rw [hk]
        exact List.mem_map.mpr ⟨(k, b), hb1, rfl⟩
      · exfalso
        apply h.1
        have hk : e.1 = k := by rw [← hb1]
        rw [hk]
        exact List.mem_map.mpr ⟨(k, a), ha1, rfl⟩
      · exact ih h.2 ha1 hb1

/-! Lemmas about `deleteSession` and the `clearOldSessions` sweep. -/

theorem deleteSession_fst (st : Registry) (sid : String) (o : DeleteOutcome) :
    (deleteSession st sid o).1 = mapDelete st sid := by
  cases o <;> rfl

theorem deleteSession_snd (st : Registry) (sid : String) (o : DeleteOutcome) :
    (deleteSession st sid o).2 = [sid] := by
  cases o <;> rfl

theorem sweep_foldl (l : Registry) (th : Nat) (f : String → DeleteOutcome) :
    ∀ (r : Registry) (inv : List String),
      l.foldl (sweepStep th f) (r, inv) =
        (deleteKeys r (staleIds l th), inv ++ staleIds l th) := by
  induction l with
  | nil => intro r inv; simp [staleIds, deleteKeys]
  | cons e rest ih =>
      intro r inv
      by_cases hs : e.2.lastActivity < th
      · rw [List.foldl_cons]
        have hstep : sweepStep th f (r, inv) e = (mapDelete r e.1, inv ++ [e.1]) := by
          simp [sweepStep, hs, deleteSession_fst, deleteSession_snd]
        rw [hstep, ih]
        have hids : staleIds (e :: rest) th = e.1 :: staleIds rest th := by
          simp [staleIds, hs]
        rw [hids]
        simp [deleteKeys]
      · rw [List.foldl_cons]
        have hstep : sweepStep th f (r, inv) e = (r, inv) := by
          simp [sweepStep, hs]
        have hids : staleIds (e :: rest) th = staleIds rest th := by
          simp [staleIds, hs]
        rw [hstep, ih, hids]

theorem clearOldSessions_eq (st : Registry) (now : Nat) (f : String → DeleteOutcome) :
    clearOldSessions st now f =
      (deleteKeys st (staleIds st (now - 60 * 60 * 1000)),
       staleIds st (now - 60 * 60 * 1000)) := by
  unfold clearOldSessions
  simpa using sweep_foldl st (now - 60 * 60 * 1000) f st []

theorem mapGet_deleteKeys (K : List String) :
    ∀ (r : Registry) (k : String),
      mapGet (deleteKeys r K) k = if k ∈ K then none else mapGet r k := by
  induction K with
  | nil => intro r k; simp [deleteKeys]
  | cons k0 K ih =>
      intro r k
      by_cases hk : k = k0
      · subst hk
        rw [deleteKeys, ih]
        by_cases hm : k ∈ K
        · simp [hm]
        · simp [hm, mapGet_mapDelete_self]
      · rw [deleteKeys, ih]
        by_cases hm : k ∈ K
        · simp [hm, hk]
        · simp [hm, hk, mapGet_mapDelete_ne r k0 k hk]

theorem mem_staleIds_of_get (st : Registry) (k : String) (s : Session) (th : Nat)
    (h : mapGet st k = some s) (hs : s.lastActivity < th) : k ∈ staleIds st th := by
  unfold staleIds
  refine List.mem_map.mpr ⟨(k, s), List.mem_filter.mpr ⟨mapGet_mem st k s h, ?_⟩, rfl⟩
  simpa using hs

theorem not_mem_staleIds (st : Registry) (k : String) (s : Session) (th : Nat)
    (hnd : (st.map (fun e => e.1)).Nodup) (h : mapGet st k = some s)
    (hs : ¬ s.lastActivity < th) : k ∉ staleIds st th := by
  intro hmem
  unfold staleIds at hmem
  rcases List.mem_map.mp hmem with ⟨e, hef, hek⟩
  rcases List.mem_filter.mp hef with ⟨hest, hstale⟩
  have hke : (k, e.2) ∈ st := by rw [← hek]; exact hest
  have hes : e.2 = s := keys_nodup_value_unique st hnd k e.2 s hke (mapGet_mem st k s h)
  apply hs
  rw [← hes]
  simpa using hstale

/-! Lemmas about the alternation invariant. -/

theorem alternates_append : ∀ (m l : List Message), alternates m = true →
    alternates (m ++ l) = alternates l
  | [], _, _ => rfl
  | [x], l, h => by simp [alternates] at h
  | u :: a :: rest, l, h => by
      simp only [alternates, Bool.and_eq_true] at h
      have h3 : alternates rest = true := h.2
      have h1 : (u.role == "user") = true := h.1.1
      have h2 : (a.role == "assistant") = true := h.1.2
      rw [List.cons_append, List.cons_append, alternates, h1, h2,
        alternates_append rest l h3]
      simp

theorem alternates_push_pair (m : List Message) (c c' : String) (t t' : Nat)
    (h : alternates m = true) :
    alternates (m ++
      [{ role := "user", content := c, timestamp := t },
       { role := "assistant", content := c', timestamp := t' }]) = true := by
  rw [alternates_append m _ h]
  rfl

theorem registryOK_iff (st : Registry) :
    registryOK st = true ↔ ∀ e ∈ st, alternates e.2.messages = true := by
  simp [registryOK, List.all_eq_true]

theorem registryOK_mapUpdate (st : Registry) (k : String) (f : Session → Session)
    (h : registryOK st = true)
    (hf : ∀ s, alternates s.messages = true → alternates (f s).messages = true) :
    registryOK (mapUpdate st k f) = true := by
  rw [registryOK_iff] at h ⊢
  intro e' he'
  rcases List.mem_map.mp he' with ⟨e, he, rfl⟩
  by_cases hk : e.1 = k
  · simp only [if_pos hk]
    exact hf e.2 (h e he)
  · simp only [if_neg hk]
    exact h e he

theorem registryOK_mapSet (st : Registry) (k : String) (v : Session)
    (h : registryOK st = true) (hv : alternates v.messages = true) :
    registryOK (mapSet st k v) = true := by
  unfold mapSet
  by_cases hh : mapHas st k = true
  · rw [if_pos hh]
    exact registryOK_mapUpdate st k _ h (fun _ _ => hv)
  · rw [if_neg hh]
    rw [registryOK_iff] at h ⊢
    intro e he
    rcases List.mem_append.mp he with he1 | he1
    · exact h e he1
    · rcases List.mem_singleton.mp he1 with rfl
      exact hv

theorem mem_mapDelete (st : Registry) (k : String) (e : String × Session)
    (h : e ∈ mapDelete st k) : e ∈ st := by
  induction st with
  | nil => simpa [mapDelete] using h
  | cons e0 rest ih =>
      by_cases he : e0.1 = k
      · rw [mapDelete, if_pos he] at h
        exact List.mem_cons_of_mem e0 (ih h)
      · rw [mapDelete, if_neg he] at h
        rcases List.mem_cons.mp h with h1 | h1
        · rw [h1]; exact List.mem_cons_self _ _
        · exact List.mem_cons_of_mem e0 (ih h1)

theorem registryOK_mapDelete (st : Registry) (k : String) (h : registryOK st = true) :
    registryOK (mapDelete st k) = true := by
  rw [registryOK_iff] at h ⊢
  intro e he
  exact h e (mem_mapDelete st k e he)

theorem registryOK_deleteKeys (K : List String) :
    ∀ (r : Registry), registryOK r = true → registryOK (deleteKeys r K) = true := by
  induction K with
  | nil => intro r h; exact h
  | cons k K ih =>
      intro r h
      rw [deleteKeys]
      exact ih _ (registryOK_mapDelete r k h)

theorem step_preserves (st : Registry) (op : Op) (h : registryOK st = true) :
    registryOK (step st op) = true := by
  cases op with
  | create now fn oc =>
      cases oc with
      | thrown m => simpa [step, createSession] using h
      | failure d => simpa [step, createSession] using h
      | success sid =>
          simp only [step, createSession]
          exact registryOK_mapSet st sid _ h rfl
  | chat now sid msg oc =>
      cases oc with
      | thrown m => simpa [step, processMessage] using h
      | failure d => simpa [step, processMessage] using h
      | success resp =>
          simp only [step, processMessage]
          by_cases hh : mapHas st sid = true
          · rw [if_pos hh]
            exact registryOK_mapUpdate st sid
              (fun s => { s with
                lastActivity := now,
                messages := s.messages ++
                  [{ role := "user", content := msg, timestamp := now },
                   { role := "assistant", content := resp, timestamp := now }] })
              h (fun s hs => alternates_push_pair s.messages msg resp now now hs)
          · rw [if_neg hh]
            exact h
  | del sid oc =>
      rw [step, deleteSession_fst]
      exact registryOK_mapDelete st sid h
  | sweep now ocs =>
      rw [step, clearOldSessions_eq]
      exact registryOK_deleteKeys _ st h
  | graphml sid oc =>
      cases oc with
      | thrown m => simpa [step, downloadGraphML] using h
      | response ok d => cases ok <;> simpa [step, downloadGraphML] using h

theorem foldl_step_preserves (ops : List Op) :
    ∀ (st : Registry), registryOK st = true → registryOK (ops.foldl step st) = true := by
  induction ops with
  | nil => intro st h; exact h
  | cons op ops ih =>
      intro st h
      rw [List.foldl_cons]
      exact ih _ (step_preserves st op h)

/-! Lemmas about successful `processMessage` runs. -/

theorem processMessage_success_tracked (st : Registry) (now : Nat)
    (sid text reply : String) (s : Session) (h : mapGet st sid = some s) :
    processMessage st now sid text (.success reply) =
      (.ok reply,
       mapUpdate st sid (fun s0 =>
         { s0 with
           lastActivity := now,
           messages := s0.messages ++ chatPair (now, text, reply) })) := by
  have hh : mapHas st sid = true := by unfold mapHas; rw [h]; rfl
  simp [processMessage, hh, chatPair]

theorem runChats_spec (sid : String) (events : List ChatEvent) :
    ∀ (st : Registry) (s : Session), mapGet st sid = some s →
      mapGet (runChats sid st events) sid =
        some { messages := s.messages ++ events.flatMap chatPair,
               filename := s.filename, createdAt := s.createdAt,
               lastActivity := events.foldl (fun _ e => e.1) s.lastActivity } ∧
      (chatStates sid st events).map (fun r => (mapGet r sid).map (fun x => x.lastActivity)) =
        events.map (fun e => some e.1) := by
  induction events with
  | nil =>
      intro st s h
      refine ⟨?_, rfl⟩
      rw [runChats, h]
      congr 1
      cases s
      simp
  | cons e rest ih =>
      intro st s h
      have hst1 : mapGet (processMessage st e.1 sid e.2.1 (.success e.2.2)).2 sid =
          some { messages := s.messages ++ chatPair e, filename := s.filename,
                 createdAt := s.createdAt, lastActivity := e.1 } := by
        rw [processMessage_success_tracked st e.1 sid e.2.1 e.2.2 s h]
        rw [mapGet_mapUpdate_self, h]
        rfl
      obtain ⟨ih1, ih2⟩ := ih _ _ hst1
      constructor
      · rw [runChats, ih1]
        congr 1
        simp [List.append_assoc]
      · rw [chatStates, List.map_cons, hst1, ih2, List.map_cons]
        simp

/-! Claim theorems. -/

/-- C1: over any sequence of successful `processMessage` calls on a session
tracked in the registry, each call appends exactly the two messages
`user`(given text) then `assistant`(backend reply) to the mirror, sets its
`lastActivity` to that call's time (so the mirror's `lastActivity` after each
call is exactly the call time, and is non-decreasing whenever the call times
are), while `filename` and `createdAt` never change. -/
theorem claim_C1_processMessage_appends_pair_and_activity_monotone
    (st : Registry) (sid : String) (s : Session) (events : List ChatEvent)
    (h : mapGet st sid = some s)
    (hmono : List.Chain' (fun a b => a ≤ b) (events.map (fun e => e.1))) :
    mapGet (runChats sid st events) sid =
      some { messages := s.messages ++ events.flatMap chatPair,
             filename := s.filename, createdAt := s.createdAt,
             lastActivity := events.foldl (fun _ e => e.1) s.lastActivity } ∧
    (chatStates sid st events).map
        (fun r => (mapGet r sid).map (fun x => x.lastActivity)) =
      events.map (fun e => some e.1) ∧
    List.Chain' (fun a b => a ≤ b)
      ((chatStates sid st events).map
        (fun r => ((mapGet r sid).map (fun x => x.lastActivity)).getD 0)) := by
  obtain ⟨h1, h2⟩ := runChats_spec sid events st s h
  refine ⟨h1, h2, ?_⟩
  have hmap : (chatStates sid st events).map
      (fun r => ((mapGet r sid).map (fun x => x.lastActivity)).getD 0) =
      events.map (fun e => e.1) := by
    have hc := congrArg (List.map (fun o => Option.getD o 0)) h2
    simpa [List.map_map, Function.comp] using hc
  rw [hmap]
  exact hmono

/-- Witness for C1 at a concrete two-call run on a tracked session. -/
theorem claim_C1_witness :
    mapGet (runChats "s1"
      [("s1", { messages := [], filename := "diagram.xml",
                createdAt := 0, lastActivity := 0 })]
      [(1, "q1", "r1"), (2, "q2", "r2")]) "s1" =
      some { messages :=
               [{ role := "user", content := "q1", timestamp := 1 },
                { role := "assistant", content := "r1", timestamp := 1 },
                { role := "user", content := "q2", timestamp := 2 },
                { role := "assistant", content := "r2", timestamp := 2 }],
             filename := "diagram.xml", createdAt := 0, lastActivity := 2 } ∧
    (chatStates "s1"
      [("s1", { messages := [], filename := "diagram.xml",
                createdAt := 0, lastActivity := 0 })]
      [(1, "q1", "r1"), (2, "q2", "r2")]).map
        (fun r => (mapGet r "s1").map (fun x => x.lastActivity)) =
      [some 1, some 2] := by
  obtain ⟨h1, h2, h3⟩ := claim_C1_processMessage_appends_pair_and_activity_monotone
    [("s1", { messages := [], filename := "diagram.xml", createdAt := 0, lastActivity := 0 })]
    "s1" { messages := [], filename := "diagram.xml", createdAt := 0, lastActivity := 0 }
    [(1, "q1", "r1"), (2, "q2", "r2")] (by decide) (by simp [List.chain'_cons])
  exact ⟨by simpa [chatPair] using h1, by simpa using h2⟩

/-- C2: a successful `createSession` stores exactly one new mirror, keyed by
the backend-issued identifier, with empty messages, the uploaded file's name
and both timestamps at the call time, leaving all other keys untouched (and
growing the registry by one entry when the id is fresh); a failed or thrown
call leaves the registry unchanged. -/
theorem claim_C2_createSession_registers_mirror_on_success_only
    (st : Registry) (now : Nat) (fn sid : String) (d : Option String) (m : String) :
    (createSession st now fn (.success sid)).1 = .ok sid ∧
    getSession (createSession st now fn (.success sid)).2 sid =
      some { messages := [], filename := fn, createdAt := now, lastActivity := now } ∧
    (∀ k, k ≠ sid → getSession (createSession st now fn (.success sid)).2 k =
      getSession st k) ∧
    (getSession st sid = none →
      ((createSession st now fn (.success sid)).2).length = st.length + 1) ∧
    (createSession st now fn (.failure d)).2 = st ∧
    (createSession st now fn (.thrown m)).2 = st := by
  refine ⟨rfl, ?_, ?_, ?_, rfl, rfl⟩
  · exact mapGet_mapSet_self st sid _
  · intro k hk
    exact mapGet_mapSet_ne st sid k _ hk
  · intro hnone
    exact length_mapSet_of_none st sid _ hnone

/-- Witness for C2 on an empty registry. -/
theorem claim_C2_witness :
    (createSession ([] : Registry) 7 "diagram.xml" (.success "s1")).1 = .ok "s1" ∧
    getSession (createSession ([] : Registry) 7 "diagram.xml" (.success "s1")).2 "s1" =
      some { messages := [], filename := "diagram.xml", createdAt := 7, lastActivity := 7 } ∧
    getSession (createSession ([] : Registry) 7 "diagram.xml" (.success "s1")).2 "s2" =
      getSession ([] : Registry) "s2" ∧
    ((createSession ([] : Registry) 7 "diagram.xml" (.success "s1")).2).length =
      ([] : Registry).length + 1 ∧
    (createSession ([] : Registry) 7 "diagram.xml" (.failure (some "bad"))).2 = [] ∧
    (createSession ([] : Registry) 7 "diagram.xml" (.thrown "net")).2 = [] := by
  obtain ⟨h1, h2, h3, h4, h5, h6⟩ :=
    claim_C2_createSession_registers_mirror_on_success_only
      ([] : Registry) 7 "diagram.xml" "s1" (some "bad") "net"
  exact ⟨h1, h2, h3 "s2" (by decide), h4 rfl, h5, h6⟩

/-- C3: `deleteSession` removes the local mirror on every outcome of the
remote call (thrown, or completed with any status) — so a subsequent
`getSession` returns `none` — and an identifier not tracked locally is a
no-op on the registry.  The operation's Lean type `Registry × List String`
(no `Except`) reflects that the source's catch-all makes it never throw. -/
theorem claim_C3_deleteSession_always_removes_locally_never_throws
    (st : Registry) (sid : String) (o : DeleteOutcome) :
    getSession (deleteSession st sid o).1 sid = none ∧
    (getSession st sid = none → (deleteSession st sid o).1 = st) := by
  rw [deleteSession_fst]
  exact ⟨mapGet_mapDelete_self st sid, fun h => mapDelete_of_none st sid h⟩

/-- Witness for C3: deleting an untracked identifier while the remote call
throws leaves the registry unchanged and the lookup absent. -/
theorem claim_C3_witness :
    getSession (deleteSession
      [("a", { messages := [], filename := "a.xml", createdAt := 0, lastActivity := 0 })]
      "b" (.thrown "network down")).1 "b" = none ∧
    (deleteSession
      [("a", { messages := [], filename := "a.xml", createdAt := 0, lastActivity := 0 })]
      "b" (.thrown "network down")).1 =
      [("a", { messages := [], filename := "a.xml", createdAt := 0, lastActivity := 0 })] := by
  obtain ⟨h1, h2⟩ := claim_C3_deleteSession_always_removes_locally_never_throws
    [("a", { messages := [], filename := "a.xml", createdAt := 0, lastActivity := 0 })]
    "b" (.thrown "network down")
  exact ⟨h1, h2 (by decide)⟩

/-- C4: `clearOldSessions` invokes deletion for exactly the identifiers whose
mirror's `lastActivity` is strictly older than one hour before the call time
(the snapshot of the registry it iterates), removes exactly those mirrors,
and leaves every other mirror untouched, whatever the outcomes of the issued
backend deletes are. -/
theorem claim_C4_clearOldSessions_sweeps_exactly_stale_mirrors
    (st : Registry) (now : Nat) (outcomes : String → DeleteOutcome)
    (hnd : (st.map (fun e => e.1)).Nodup) :
    (clearOldSessions st now outcomes).2 = staleIds st (now - 60 * 60 * 1000) ∧
    ∀ (k : String) (s : Session), mapGet st k = some s →
      (s.lastActivity < now - 60 * 60 * 1000 →
        mapGet (clearOldSessions st now outcomes).1 k = none) ∧
      (¬ s.lastActivity < now - 60 * 60 * 1000 →
        mapGet (clearOldSessions st now outcomes).1 k = some s) := by
  rw [clearOldSessions_eq]
  refine ⟨rfl, ?_⟩
  intro k s h
  constructor
  · intro hs
    rw [mapGet_deleteKeys]
    simp [mem_staleIds_of_get st k s _ h hs]
  · intro hs
    rw [mapGet_deleteKeys, if_neg (not_mem_staleIds st k s _ hnd h hs)]
    exact h

/-- Witness for C4: with a 2-hours-idle session and a 5-minutes-idle session
at a 1-hour threshold, deletion is invoked exactly on the former and the
latter's mirror is untouched. -/
theorem claim_C4_witness :
    (clearOldSessions
      [("old", { messages := [], filename := "a.xml", createdAt := 0, lastActivity := 0 }),
       ("new", { messages := [], filename := "b.xml", createdAt := 3900000,
                 lastActivity := 3900000 })]
      4000000 (fun _ => .completed true)).2 = ["old"] ∧
    mapGet (clearOldSessions
      [("old", { messages := [], filename := "a.xml", createdAt := 0, lastActivity := 0 }),
       ("new", { messages := [], filename := "b.xml", createdAt := 3900000,
                 lastActivity := 3900000 })]
      4000000 (fun _ => .completed true)).1 "old" = none ∧
    mapGet (clearOldSessions
      [("old", { messages := [], filename := "a.xml", createdAt := 0, lastActivity := 0 }),
       ("new", { messages := [], filename := "b.xml", createdAt := 3900000,
                 lastActivity := 3900000 })]
      4000000 (fun _ => .completed true)).1 "new" =
      some { messages := [], filename := "b.xml", createdAt := 3900000,
             lastActivity := 3900000 } := by
  obtain ⟨h1, h2⟩ := claim_C4_clearOldSessions_sweeps_exactly_stale_mirrors
    [("old", { messages := [], filename := "a.xml", createdAt := 0, lastActivity := 0 }),
     ("new", { messages := [], filename := "b.xml", createdAt := 3900000,
               lastActivity := 3900000 })]
    4000000 (fun _ => .completed true) (by decide)
  refine ⟨?_, ?_, ?_⟩
  · rw [h1]; decide
  · exact (h2 "old"
      { messages := [], filename := "a.xml", createdAt := 0, lastActivity := 0 }
      (by decide)).1 (by decide)
  · exact (h2 "new"
      { messages := [], filename := "b.xml", createdAt := 3900000, lastActivity := 3900000 }
      (by decide)).2 (by decide)

/-- C5: `getApiStatus` always produces a `HealthStatus` (it is a total
function): any thrown probe or non-success response yields exactly the fixed
degraded sentinel (unavailable, AI integration not configured, zero active
sessions, backend not connected), and a successful response yields the
backend-reported configuration and session count with availability and
reachability true. -/
theorem claim_C5_getApiStatus_total_with_degraded_sentinel
    (m : String) (oa : Bool) (as : Nat) :
    getApiStatus (.thrown m) = degradedStatus ∧
    getApiStatus (.response false oa as) = degradedStatus ∧
    getApiStatus (.response true oa as) =
      { available := true, openai_configured := oa, active_sessions := as,
        backend_connected := true } ∧
    degradedStatus =
      { available := false, openai_configured := false, active_sessions := 0,
        backend_connected := false } :=
  ⟨rfl, rfl, rfl, rfl⟩

/-- C6: when the backend answers `/chat` with a non-success status whose body
carries a (non-empty) `detail`, `processMessage` fails with a
`MessageProcessingError` carrying exactly that backend-supplied reason — e.g.
`"session not found"` for a 404 with body `detail: "session not found"` —
and the registry, hence any existing mirror, is left completely unmodified. -/
theorem claim_C6_processMessage_failure_carries_detail_no_mutation
    (st : Registry) (now : Nat) (sid text r : String) (hr : r ≠ "") :
    processMessage st now sid text (.failure (some r)) =
      (.error (.messageProcessingError r), st) := by
  simp [processMessage, jsOr, hr]

/-- Witness for C6 at the spec's 404 scenario. -/
theorem claim_C6_witness :
    processMessage
      [("s1", { messages := [], filename := "diagram.xml", createdAt := 0,
                lastActivity := 0 })]
      5 "s1" "hello" (.failure (some "session not found")) =
      (.error (.messageProcessingError "session not found"),
       [("s1", { messages := [], filename := "diagram.xml", createdAt := 0,
                 lastActivity := 0 })]) :=
  claim_C6_processMessage_failure_carries_detail_no_mutation
    [("s1", { messages := [], filename := "diagram.xml", createdAt := 0,
              lastActivity := 0 })]
    5 "s1" "hello" "session not found" (by decide)

/-- C7: a successful `processMessage` on an identifier with no local mirror
still returns the assistant reply and leaves the registry unchanged. -/
theorem claim_C7_processMessage_untracked_returns_reply_no_mutation
    (st : Registry) (now : Nat) (sid text reply : String)
    (h : getSession st sid = none) :
    processMessage st now sid text (.success reply) = (.ok reply, st) := by
  have hh : mapHas st sid = false := by
    unfold mapHas
    unfold getSession at h
    rw [h]
    rfl
  simp [processMessage, hh]

/-- Witness for C7: a reply for an untracked identifier. -/
theorem claim_C7_witness :
    processMessage
      [("a", { messages := [], filename := "a.xml", createdAt := 0, lastActivity := 0 })]
      9 "s9" "hi" (.success "hello") =
      (.ok "hello",
       [("a", { messages := [], filename := "a.xml", createdAt := 0,
                lastActivity := 0 })]) :=
  claim_C7_processMessage_untracked_returns_reply_no_mutation
    [("a", { messages := [], filename := "a.xml", createdAt := 0, lastActivity := 0 })]
    9 "s9" "hi" "hello" (by decide)

/-- C8 counterexample: the claim says the `ExportUnavailableError` carries the
backend-supplied reason when one is available; but with a non-success response
whose body carries `detail: "quota exceeded"`, `downloadGraphML` fails with
the fixed generic message, not the backend's reason. -/
theorem claim_C8_counterexample_export_error_ignores_backend_detail :
    (downloadGraphML ([] : Registry) "s1" (.response false (some "quota exceeded"))).1 =
      .error (.exportUnavailableError "GraphML export not available") ∧
    ServiceError.exportUnavailableError "GraphML export not available" ≠
      ServiceError.exportUnavailableError "quota exceeded" :=
  ⟨rfl, by decide⟩

/-- C8 (amended): on every non-success response, `downloadGraphML` fails with
an `ExportUnavailableError` carrying the fixed generic message
`"GraphML export not available"` — regardless of any backend-supplied reason —
and the registry is not mutated. -/
theorem claim_C8_download_export_fails_with_generic_message_no_mutation
    (st : Registry) (sid : String) (d : Option String) :
    downloadGraphML st sid (.response false d) =
      (.error (.exportUnavailableError "GraphML export not available"), st) :=
  rfl

/-- C9: starting from the constructor's empty registry, after any sequence of
operations every mirror's message list has even length and strictly
alternates roles `user`, `assistant`, `user`, ... — creation yields an empty
list, successful message processing appends one user/assistant pair, and no
other operation appends messages. -/
theorem claim_C9_mirrors_alternate_user_assistant (ops : List Op) :
    registryOK (runOps ops) = true :=
  foldl_step_preserves ops [] rfl

/-- C10: `deleteSession` issues the backend DELETE for the given identifier on
every path (the fetch precedes any local check), and when the identifier is
untracked the registry is left unchanged while the request is still issued. -/
theorem claim_C10_deleteSession_always_issues_backend_request
    (st : Registry) (sid : String) (o : DeleteOutcome) :
    (deleteSession st sid o).2 = [sid] ∧
    (getSession st sid = none → (deleteSession st sid o).1 = st) := by
  refine ⟨deleteSession_snd st sid o, fun h => ?_⟩
  rw [deleteSession_fst]
  exact mapDelete_of_none st sid h

/-- Witness for C10: deleting an identifier that is not tracked still issues
the backend request and leaves the registry unchanged. -/
theorem claim_C10_witness :
    (deleteSession
      [("a", { messages := [], filename := "a.xml", createdAt := 0, lastActivity := 0 })]
      "zz" (.completed false)).2 = ["zz"] ∧
    (deleteSession
      [("a", { messages := [], filename := "a.xml", createdAt := 0, lastActivity := 0 })]
      "zz" (.completed false)).1 =
      [("a", { messages := [], filename := "a.xml", createdAt := 0, lastActivity := 0 })] := by
  obtain ⟨h1, h2⟩ := claim_C10_deleteSession_always_issues_backend_request
    [("a", { messages := [], filename := "a.xml", createdAt := 0, lastActivity := 0 })]
    "zz" (.completed false)
  exact ⟨h1, h2 (by decide)⟩

end AIService
